import Mathlib

/-!
# Verification of the SCORM course front-end core

Shallow embedding of the two core components of the repository:

* `src/lib/scorm.ts` — the `ScormWrapper` class that talks to the LMS
  runtime (SCORM 1.2 API object), modelled as a pure state machine whose
  operations return a result, the successor wrapper state, and the list of
  calls made on the LMS runtime object;
* the `useCourseProgress` store — lesson progress data, the
  `completeLesson` / `setCurrentLesson` / `resetProgress` mutators, the
  `isLessonAccessible` query and the snapshot-loading initialiser, all
  modelled as pure functions on a `CourseProgress` state.

JavaScript numbers are modelled as `Nat`/`Int` (the program only ever
computes with small non-negative integers; `Math.round((c / n) * 100)` is
exact over the rationals for all values reachable here, see `roundPct`).
-/

/-! ## Progress store: data model (`useCourseProgress.ts` part of scorm.ts) -/

/-- `LessonProgress` record: `{ lessonId: number; completed: boolean; quizScore?: number }`. -/
structure LessonProgress where
  lessonId : Nat
  completed : Bool
  quizScore : Option Int
deriving DecidableEq, Repr

/-- `CourseProgress` record: `{ currentLesson: number; lessons: LessonProgress[]; overallProgress: number }`. -/
structure CourseProgress where
  currentLesson : Nat
  lessons : List LessonProgress
  overallProgress : Nat
deriving DecidableEq, Repr

/-- `const TOTAL_LESSONS = 7`. -/
def TOTAL_LESSONS : Nat := 7

/-- `Math.round((c / n) * 100)` computed exactly over the rationals:
`⌊100 * c / n + 1 / 2⌋ = (200 * c + n) / (2 * n)` in natural division
(`Math.round` rounds half-integers up, i.e. `round x = ⌊x + 1/2⌋` for
non-negative `x`).  For every `n` the program actually divides by
(`n = 7`, the fixed lesson-list length) the double-precision value of
`(c / n) * 100` rounds to the same integer as the exact rational, so this
is a faithful model of the source expression. -/
def roundPct (c n : Nat) : Nat := (200 * c + n) / (2 * n)

/-- `initialProgress`: lesson 1 current, seven lessons all incomplete, 0 %. -/
def initialProgress : CourseProgress :=
  { currentLesson := 1
    lessons := (List.range TOTAL_LESSONS).map fun i =>
      { lessonId := i + 1, completed := false, quizScore := none }
    overallProgress := 0 }

/-- Number of lessons of the state whose `completed` flag is true
(`lessons.filter((l) => l.completed).length` in the source). -/
def completedCount (p : CourseProgress) : Nat :=
  (p.lessons.filter fun l => l.completed).length

/-- All lessons of the state are completed. -/
def allCompleted (p : CourseProgress) : Bool :=
  p.lessons.all fun l => l.completed

/-- `completeLesson(lessonId, quizScore?)`.  Returns the successor state
together with the number of `scorm.setComplete()` calls the mutator makes
(the source calls it exactly when `completedCount === TOTAL_LESSONS`).
The lesson-list update, progress computation, and `currentLesson` update
mirror the source body line by line; persistence (the `useEffect` that
writes the snapshot to `localStorage`) is an I/O side effect outside the
data model. -/
def completeLesson (prev : CourseProgress) (lessonId : Nat) (quizScore : Option Int) :
    CourseProgress × Nat :=
  let newLessons := prev.lessons.map fun l =>
    if l.lessonId = lessonId then { l with completed := true, quizScore := quizScore } else l
  let cc := (newLessons.filter fun l => l.completed).length
  let overallProgress := roundPct cc newLessons.length
  let reports := if cc = TOTAL_LESSONS then 1 else 0
  ({ currentLesson := if lessonId < TOTAL_LESSONS then lessonId + 1 else lessonId
     lessons := newLessons
     overallProgress := overallProgress }, reports)

/-- `setCurrentLesson(lessonId)`: unconditionally overwrite `currentLesson`. -/
def setCurrentLesson (prev : CourseProgress) (lessonId : Nat) : CourseProgress :=
  { prev with currentLesson := lessonId }

/-- `resetProgress()`: restore the canonical initial state (the source also
clears the persisted snapshot, an I/O effect outside the data model). -/
def resetProgress : CourseProgress := initialProgress

/-- `isLessonAccessible(lessonId)`: lesson 1 always accessible, otherwise
look up lesson `lessonId - 1` with `find` and return its `completed` flag,
defaulting to `false` when absent (`previousLesson?.completed ?? false`). -/
def isLessonAccessible (p : CourseProgress) (lessonId : Nat) : Bool :=
  if lessonId = 1 then true
  else
    match p.lessons.find? (fun l => l.lessonId == lessonId - 1) with
    | some previousLesson => previousLesson.completed
    | none => false

/-- The `useState` initialiser of `useCourseProgress`: read the snapshot
under the storage key (`saved`, `none` when `localStorage.getItem`
returned `null`), and `JSON.parse` it (modelled by the parameter `parse`;
`parse s = none` models a `JSON.parse` throw, i.e. a malformed snapshot).
An empty stored string is falsy in JavaScript, so it also falls back to
`initialProgress` without being parsed. -/
def loadProgress (saved : Option String) (parse : String → Option CourseProgress) :
    CourseProgress :=
  match saved with
  | none => initialProgress
  | some s =>
    if s = "" then initialProgress
    else
      match parse s with
      | some p => p
      | none => initialProgress

/-- States of the store reachable from the canonical initial state by
`completeLesson`, `setCurrentLesson` and `resetProgress` calls with lesson
ids in `1..TOTAL_LESSONS`. -/
inductive Reachable : CourseProgress → Prop
  | init : Reachable initialProgress
  | complete {p k q} : Reachable p → 1 ≤ k → k ≤ TOTAL_LESSONS →
      Reachable (completeLesson p k q).1
  | setCur {p k} : Reachable p → 1 ≤ k → k ≤ TOTAL_LESSONS →
      Reachable (setCurrentLesson p k)
  | reset {p} : Reachable p → Reachable resetProgress

/-! ## SCORM wrapper: data model (`ScormWrapper` class of scorm.ts)

The LMS runtime object (`window.API`) is modelled as a record of response
functions; the wrapper's operations are pure state transformers that also
return the list of calls they issued on that runtime object, so that
"makes no call on the runtime" and "issues commit before finish" are
statable.  The names `LMSFinish`, `LMSGetValue`, … follow the SCORM 1.2
element names of the source; the handshake request (`LMSInitialize` in
the source) is called `LMSInitReq` here. -/

/-- The SCORM 1.2 runtime API object (`type ScormAPI` in the source):
`LMSInitReq` models the `LMSInitialize` member. -/
structure ScormAPI where
  LMSInitReq : String → String
  LMSFinish : String → String
  LMSGetValue : String → String
  LMSSetValue : String → String → String
  LMSCommit : String → String
  LMSGetLastError : Unit → String
  LMSGetErrorString : String → String
  LMSGetDiagnostic : String → String

/-- One call made on the LMS runtime object (used to record traces);
`initReqCall` records an `LMSInitialize` request. -/
inductive RuntimeCall where
  | initReqCall (param : String)
  | finishCall (param : String)
  | getValueCall (element : String)
  | setValueCall (element : String) (value : String)
  | commitCall (param : String)
  | getLastErrorCall
deriving DecidableEq, Repr

/-- The mutable fields of the `ScormWrapper` class: `api` (discovered
runtime handle or `null`), `initialized`, `finishOnUnload`. -/
structure ScormWrapper where
  api : Option ScormAPI
  initialized : Bool
  finishOnUnload : Bool

/-- Result of one wrapper operation: the returned value, the wrapper
state afterwards, and the calls issued on the LMS runtime object. -/
structure WrapperResult (α : Type) where
  value : α
  state : ScormWrapper
  calls : List RuntimeCall

/-- `isConnected()`: `this.api !== null && this.initialized`. -/
def ScormWrapper.isConnected (s : ScormWrapper) : Bool :=
  s.api.isSome && s.initialized

/-- `getValue(element)`: guarded by `!this.initialized || !this.api`. -/
def ScormWrapper.getValue (s : ScormWrapper) (element : String) : WrapperResult String :=
  match s.initialized, s.api with
  | true, some a => ⟨a.LMSGetValue element, s, [RuntimeCall.getValueCall element]⟩
  | _, _ => ⟨"", s, []⟩

/-- `setValue(element, value)`: guarded like `getValue`; returns whether
the runtime answered the literal success token `"true"`. -/
def ScormWrapper.setValue (s : ScormWrapper) (element value : String) : WrapperResult Bool :=
  match s.initialized, s.api with
  | true, some a => ⟨a.LMSSetValue element value == "true", s,
      [RuntimeCall.setValueCall element value]⟩
  | _, _ => ⟨false, s, []⟩

/-- `commit()`: guarded like `getValue`; issues `LMSCommit('')`. -/
def ScormWrapper.commit (s : ScormWrapper) : WrapperResult Bool :=
  match s.initialized, s.api with
  | true, some a => ⟨a.LMSCommit "" == "true", s, [RuntimeCall.commitCall ""]⟩
  | _, _ => ⟨false, s, []⟩

/-- `initialize()` (named `initReq` here): success no-op when already
initialized; failure when no runtime handle; otherwise issue
`LMSInitialize('')` and become initialized exactly when the response is
`"true"`.  The `addEventListener` registration of unload hooks is a
browser side effect outside this model. -/
def ScormWrapper.initReq (s : ScormWrapper) : WrapperResult Bool :=
  match s.initialized, s.api with
  | true, _ => ⟨true, s, []⟩
  | false, none => ⟨false, s, []⟩
  | false, some a =>
    let ok := a.LMSInitReq "" == "true"
    ⟨ok, { s with initialized := ok }, [RuntimeCall.initReqCall ""]⟩

/-- `terminate()`: guarded by `!this.initialized || !this.api`; then
`this.commit()` (result discarded), `LMSFinish('')`, clear `initialized`,
and return whether the finish response was `"true"`. -/
def ScormWrapper.terminate (s : ScormWrapper) : WrapperResult Bool :=
  match s.initialized, s.api with
  | true, some a =>
    let c := ScormWrapper.commit s
    let result := a.LMSFinish ""
    ⟨result == "true", { c.state with initialized := false },
      c.calls ++ [RuntimeCall.finishCall ""]⟩
  | _, _ => ⟨false, s, []⟩

/-- `getLastError()`: only guarded by the presence of the handle. -/
def ScormWrapper.getLastError (s : ScormWrapper) : WrapperResult String :=
  match s.api with
  | some a => ⟨a.LMSGetLastError (), s, [RuntimeCall.getLastErrorCall]⟩
  | none => ⟨"", s, []⟩

/-- `setLessonStatus(status)`: `setValue('cmi.core.lesson_status', status)`
(the source restricts `status` to the six SCORM vocabulary tokens at the
type level; the protocol itself is string-typed). -/
def ScormWrapper.setLessonStatus (s : ScormWrapper) (status : String) : WrapperResult Bool :=
  ScormWrapper.setValue s "cmi.core.lesson_status" status

/-- `setComplete()`: `setLessonStatus('completed')`, then `commit()`;
returns the status write's success (the commit result is dropped). -/
def ScormWrapper.setComplete (s : ScormWrapper) : WrapperResult Bool :=
  let r1 := ScormWrapper.setLessonStatus s "completed"
  let r2 := ScormWrapper.commit r1.state
  ⟨r1.value, r2.state, r1.calls ++ r2.calls⟩

/-! ## Runtime-handle discovery (`findAPI` of scorm.ts)

Browser windows are modelled as nodes of a graph: each window has an
optional `API` handle, an optional parent (`none` models a falsy
`win.parent`) and an optional opener.  `findAPI`'s `while` loop carries an
explicit attempt counter bounded by 500; its trailing opener recursion is
unbounded in the source, so the embedding carries an explicit fuel and a
`none` result means the recursion did not finish within that fuel (the
fuel only limits opener recursion, never the parent walk). -/

/-- A window hierarchy: `api w` is `w.API`, `parent w` is `w.parent`
(`none` for a falsy parent), `opener w` is `w.opener`. -/
structure WindowGraph where
  api : Nat → Option ScormAPI
  parent : Nat → Option Nat
  opener : Nat → Option Nat

/-- The `while` loop of `findAPI`: hop to the parent while the current
window has no `API`, has a parent different from itself, and fewer than
`maxAttempts` hops were made; `rem` is the number of hops still allowed
(`maxAttempts - attempts`, initially 500).  Returns the window the loop
stops at. -/
def findAPIWalk (g : WindowGraph) : Nat → Nat → Nat
  | w, 0 => w
  | w, rem + 1 =>
    match g.api w, g.parent w with
    | none, some p => if p ≠ w then findAPIWalk g p rem else w
    | _, _ => w

/-- Number of parent hops the `while` loop makes from `w` with `rem`
hops still allowed. -/
def findAPIWalkSteps (g : WindowGraph) : Nat → Nat → Nat
  | _, 0 => 0
  | w, rem + 1 =>
    match g.api w, g.parent w with
    | none, some p => if p ≠ w then findAPIWalkSteps g p rem + 1 else 0
    | _, _ => 0

/-- `findAPI(win)` with explicit fuel for the opener recursion: walk the
parent chain (at most 500 hops), return the handle found there, else
recurse on the stopping window's opener, else return `null`.  The outer
`Option` is the fuelled-semantics verdict: `some r` means the source
recursion terminates with result `r`, `none` means it has not terminated
within `fuel` opener recursions. -/
def findAPIFuel (g : WindowGraph) : Nat → Nat → Option (Option ScormAPI)
  | 0, _ => none
  | fuel + 1, w =>
    match g.api (findAPIWalk g w 500) with
    | some a => some (some a)
    | none =>
      match g.opener (findAPIWalk g w 500) with
      | some o => findAPIFuel g fuel o
      | none => some none

/-- The discovery at window `w` of graph `g` terminates: some finite
amount of opener-recursion fuel suffices for `findAPI` to return. -/
def FindAPITerminates (g : WindowGraph) (w : Nat) : Prop :=
  ∃ fuel, (findAPIFuel g fuel w).isSome = true

/-- A hierarchy on which the source `findAPI` never returns: a single
window that has no `API`, no parent, and is its own opener (JavaScript
permits `window.opener = window`) — every opener recursion starts over at
the same window. -/
def cyclicOpenerGraph : WindowGraph :=
  { api := fun _ => none, parent := fun _ => none, opener := fun _ => some 0 }

/-- A two-window hierarchy with a well-founded opener chain: window 1 has
no `API` and was opened by window 0, which has neither `API` nor opener;
no window has a parent. -/
def acyclicOpenerGraph : WindowGraph :=
  { api := fun _ => none
    parent := fun _ => none
    opener := fun w => if w = 1 then some 0 else none }

/-! ## Concrete states used as witnesses -/

/-- The store state with lessons 1–6 completed and lesson 7 still open
(the state of the spec's walkthrough just before the last completion). -/
def progressSix : CourseProgress :=
  { currentLesson := 7
    lessons := (List.range TOTAL_LESSONS).map fun i =>
      { lessonId := i + 1, completed := i + 1 < TOTAL_LESSONS, quizScore := none }
    overallProgress := 86 }

/-- The fully-completed store state. -/
def fullProgress : CourseProgress :=
  { currentLesson := TOTAL_LESSONS
    lessons := (List.range TOTAL_LESSONS).map fun i =>
      { lessonId := i + 1, completed := true, quizScore := none }
    overallProgress := 100 }

/-- A parse function on which every string is malformed (all that the
malformed-snapshot scenario needs). -/
def parseNone : String → Option CourseProgress := fun _ => none

/-- An LMS runtime stub that acknowledges every request with the literal
success token and answers reads with a fixed value. -/
def apiYes : ScormAPI :=
  { LMSInitReq := fun _ => "true"
    LMSFinish := fun _ => "true"
    LMSGetValue := fun _ => "completed"
    LMSSetValue := fun _ _ => "true"
    LMSCommit := fun _ => "true"
    LMSGetLastError := fun _ => "0"
    LMSGetErrorString := fun _ => ""
    LMSGetDiagnostic := fun _ => "" }

/-- A wrapper that never found a runtime handle. -/
def disconnectedWrapper : ScormWrapper :=
  { api := none, initialized := false, finishOnUnload := true }

/-- A wrapper in the Connected-Active state against `apiYes`. -/
def activeWrapper : ScormWrapper :=
  { api := some apiYes, initialized := true, finishOnUnload := true }

/-! ## Helper lemmas -/

/-- A filter keeps every element exactly when its length is preserved. -/
theorem length_filter_eq_iff_all {α : Type} (l : List α) (c : α → Bool) :
    (l.filter c).length = l.length ↔ l.all c = true := by
  constructor
  · intro h
    have hsub : List.Sublist (l.filter c) l := List.filter_sublist l
    have heq : l.filter c = l := hsub.eq_of_length h
    rw [List.filter_eq_self] at heq
    simp only [List.all_eq_true]
    exact heq
  · intro h
    have heq : l.filter c = l := List.filter_eq_self.mpr (List.all_eq_true.mp h)
    rw [heq]

/-- Reachability invariant of the store: the lesson list keeps its fixed
length 7, and `overallProgress` is the rounded completion percentage. -/
theorem reachable_invariant (p : CourseProgress) (h : Reachable p) :
    p.lessons.length = TOTAL_LESSONS ∧
      p.overallProgress = roundPct (completedCount p) TOTAL_LESSONS := by
  induction h with
  | init => exact ⟨by decide, by decide⟩
  | complete hp h1 h2 ih =>
    obtain ⟨hlen, _⟩ := ih
    refine ⟨by simpa [completeLesson] using hlen, ?_⟩
    simp [completeLesson, completedCount, hlen]
  | setCur hp h1 h2 ih =>
    simpa [setCurrentLesson, completedCount] using ih
  | reset hp ih => exact ⟨by decide, by decide⟩

/-- C1: in every reachable store state, `overallProgress` equals
`round(100 * completedCount / 7)`. -/
theorem overallProgress_invariant (p : CourseProgress) (h : Reachable p) :
    p.overallProgress = roundPct (completedCount p) TOTAL_LESSONS :=
  (reachable_invariant p h).2

/-- Witness for C1 at the concrete reachable state reached by
`completeLesson(1)` from the initial state. -/
theorem overallProgress_invariant_witness :
    (completeLesson initialProgress 1 none).1.overallProgress =
      roundPct (completedCount (completeLesson initialProgress 1 none).1) TOTAL_LESSONS :=
  overallProgress_invariant _
    (Reachable.complete Reachable.init (by decide) (by decide))

/-- C2 counterexample: on the initial state (`currentLesson = 1`),
`completeLesson(7)` sets `currentLesson` to 7, so the last-lesson call
does not leave `currentLesson` unchanged in every store state. -/
theorem completeLesson_last_counterexample :
    (completeLesson initialProgress 7 none).1.currentLesson ≠
      initialProgress.currentLesson := by decide

/-- C2 (amended): for `1 ≤ k ≤ 7`, `completeLesson(k)` sets
`currentLesson` to `k + 1` when `k < 7` and to `k` itself when `k = 7`
(so the last-lesson call leaves it unchanged only if it was already 7). -/
theorem completeLesson_currentLesson (p : CourseProgress) (k : Nat) (q : Option Int)
    (h1 : 1 ≤ k) (h2 : k ≤ TOTAL_LESSONS) :
    (completeLesson p k q).1.currentLesson =
      if k < TOTAL_LESSONS then k + 1 else k := rfl

/-- Witness for the amended C2 at `k = 7` on the initial state. -/
theorem completeLesson_currentLesson_witness :
    1 ≤ 7 ∧ 7 ≤ TOTAL_LESSONS ∧
      (completeLesson initialProgress 7 none).1.currentLesson =
        if 7 < TOTAL_LESSONS then 7 + 1 else 7 :=
  ⟨by decide, by decide,
    completeLesson_currentLesson initialProgress 7 none (by decide) (by decide)⟩

/-- C3: from a 7-lesson state with an incomplete lesson, `completeLesson`
makes exactly one `setComplete` call when the resulting state is fully
completed, and none when some lesson is still incomplete. -/
theorem completeLesson_reports (p : CourseProgress) (k : Nat) (q : Option Int)
    (hlen : p.lessons.length = TOTAL_LESSONS) (hinc : allCompleted p = false) :
    (completeLesson p k q).2 =
      if allCompleted (completeLesson p k q).1 = true then 1 else 0 := by
  simp only [completeLesson, allCompleted]
  have hL : (p.lessons.map fun l =>
      if l.lessonId = k then { l with completed := true, quizScore := q } else l).length =
      TOTAL_LESSONS := by
    simpa using hlen
  have key := length_filter_eq_iff_all
    (p.lessons.map fun l =>
      if l.lessonId = k then { l with completed := true, quizScore := q } else l)
    (fun l => l.completed)
  rw [hL] at key
  by_cases hc : ((p.lessons.map fun l =>
      if l.lessonId = k then { l with completed := true, quizScore := q } else l).filter
        fun l => l.completed).length = TOTAL_LESSONS
  · rw [if_pos hc, if_pos (key.mp hc)]
  · rw [if_neg hc, if_neg fun hall => hc (key.mpr hall)]

/-- Witness for C3 at the concrete state with lessons 1–6 completed:
completing lesson 7 reaches the fully-completed state and reports once. -/
theorem completeLesson_reports_witness :
    progressSix.lessons.length = TOTAL_LESSONS ∧ allCompleted progressSix = false ∧
      (completeLesson progressSix 7 none).2 =
        if allCompleted (completeLesson progressSix 7 none).1 = true then 1 else 0 :=
  ⟨by decide, by decide, completeLesson_reports progressSix 7 none (by decide) (by decide)⟩

/-- C4 counterexample: on the fully-completed state (`currentLesson = 7`),
`completeLesson(2, 50)` changes the stored data — it moves
`currentLesson` to 3, and it overwrites lesson 2's quiz score (absent
before the call, 50 after it) — so the call is not idempotent at the
data level. -/
theorem completeLesson_idempotent_counterexample :
    allCompleted fullProgress = true ∧
      (completeLesson fullProgress 2 (some 50)).1.currentLesson = 3 ∧
      fullProgress.currentLesson = 7 ∧
      ((completeLesson fullProgress 2 (some 50)).1.lessons.find?
          fun l => l.lessonId == 2).map LessonProgress.quizScore = some (some 50) ∧
      (fullProgress.lessons.find? fun l => l.lessonId == 2).map
          LessonProgress.quizScore = some none ∧
      (completeLesson fullProgress 2 (some 50)).1 ≠ fullProgress := by decide

/-- C4 (amended): on a fully-completed 7-lesson state, `completeLesson(k, q)`
leaves every `completed` flag set and keeps `overallProgress` at 100 while
re-invoking the completion report once; but it still moves `currentLesson`
to `k + 1` (or keeps `k` for the last lesson) and overwrites lesson `k`'s
quiz score with `q` (every lesson with id `k` in the resulting state
carries quiz score `q`, whatever score it held before), so idempotence
holds only for the completion data, not for `currentLesson` or the quiz
score. -/
theorem completeLesson_after_completion (p : CourseProgress) (k : Nat) (q : Option Int)
    (h1 : 1 ≤ k) (h2 : k ≤ TOTAL_LESSONS)
    (hlen : p.lessons.length = TOTAL_LESSONS) (hall : allCompleted p = true) :
    (completeLesson p k q).1.lessons.map LessonProgress.completed =
        p.lessons.map LessonProgress.completed ∧
      (completeLesson p k q).1.overallProgress = 100 ∧
      (completeLesson p k q).2 = 1 ∧
      ((completeLesson p k q).1.currentLesson =
        if k < TOTAL_LESSONS then k + 1 else k) ∧
      ∀ l ∈ (completeLesson p k q).1.lessons, l.lessonId = k → l.quizScore = q := by
  have hmem : ∀ l ∈ p.lessons, l.completed = true := by
    simpa [allCompleted, List.all_eq_true] using hall
  have hcomp : ∀ l ∈ p.lessons,
      (if l.lessonId = k then { l with completed := true, quizScore := q } else l).completed =
        l.completed := by
    intro l hl
    by_cases hid : l.lessonId = k
    · simp [hid, hmem l hl]
    · simp [hid]
  have hfilter : ((p.lessons.map fun l =>
      if l.lessonId = k then { l with completed := true, quizScore := q } else l).filter
        fun l => l.completed) =
      p.lessons.map fun l =>
        if l.lessonId = k then { l with completed := true, quizScore := q } else l := by
    refine List.filter_eq_self.mpr ?_
    intro l' hl'
    obtain ⟨l, hl, rfl⟩ := List.mem_map.mp hl'
    rw [hcomp l hl]
    exact hmem l hl
  refine ⟨?_, ?_, ?_, rfl, ?_⟩
  · show ((p.lessons.map fun l =>
        if l.lessonId = k then { l with completed := true, quizScore := q } else l).map
          LessonProgress.completed) = p.lessons.map LessonProgress.completed
    rw [List.map_map]
    exact List.map_congr_left hcomp
  · show roundPct
        ((p.lessons.map fun l =>
          if l.lessonId = k then { l with completed := true, quizScore := q } else l).filter
            fun l => l.completed).length
        (p.lessons.map fun l =>
          if l.lessonId = k then { l with completed := true, quizScore := q } else l).length =
      100
    rw [hfilter, List.length_map, hlen]
    decide
  · show (if ((p.lessons.map fun l =>
        if l.lessonId = k then { l with completed := true, quizScore := q } else l).filter
          fun l => l.completed).length = TOTAL_LESSONS then 1 else 0) = 1
    rw [hfilter, List.length_map, hlen, if_pos rfl]
  · intro l' hl' hid
    obtain ⟨l, hl, rfl⟩ := List.mem_map.mp hl'
    by_cases h : l.lessonId = k
    · simp [h]
    · rw [if_neg h] at hid
      exact absurd hid h

/-- Witness for the amended C4 at the fully-completed state, `k = 2`. -/
theorem completeLesson_after_completion_witness :
    1 ≤ 2 ∧ 2 ≤ TOTAL_LESSONS ∧ fullProgress.lessons.length = TOTAL_LESSONS ∧
      allCompleted fullProgress = true ∧
      ((completeLesson fullProgress 2 (some 50)).1.lessons.map LessonProgress.completed =
          fullProgress.lessons.map LessonProgress.completed ∧
        (completeLesson fullProgress 2 (some 50)).1.overallProgress = 100 ∧
        (completeLesson fullProgress 2 (some 50)).2 = 1 ∧
        ((completeLesson fullProgress 2 (some 50)).1.currentLesson =
          if 2 < TOTAL_LESSONS then 2 + 1 else 2) ∧
        ∀ l ∈ (completeLesson fullProgress 2 (some 50)).1.lessons,
          l.lessonId = 2 → l.quizScore = some 50) :=
  ⟨by decide, by decide, by decide, by decide,
    completeLesson_after_completion fullProgress 2 (some 50)
      (by decide) (by decide) (by decide) (by decide)⟩

/-- C7: in every store state whose lesson ids are distinct (true of every
state the store itself builds), lesson 1 is always accessible, and for
`k > 1` lesson `k` is accessible exactly when a lesson with id `k - 1`
exists and is completed (false when no such lesson exists). -/
theorem isLessonAccessible_spec (p : CourseProgress) (k : Nat)
    (hnd : (p.lessons.map LessonProgress.lessonId).Nodup) :
    (k = 1 → isLessonAccessible p k = true) ∧
      (1 < k → (isLessonAccessible p k = true ↔
        ∃ l, l ∈ p.lessons ∧ l.lessonId = k - 1 ∧ l.completed = true)) := by
  constructor
  · intro hk
    subst hk
    simp [isLessonAccessible]
  · intro hk
    have hk1 : k ≠ 1 := by omega
    unfold isLessonAccessible
    rw [if_neg hk1]
    cases hfind : p.lessons.find? fun l => l.lessonId == k - 1 with
    | none =>
      constructor
      · intro h
        exact absurd h (by simp)
      · rintro ⟨l, hl, hid, hc⟩
        have hsome : (p.lessons.find? fun l => l.lessonId == k - 1).isSome := by
          rw [List.find?_isSome]
          exact ⟨l, hl, by simp [hid]⟩
        rw [hfind] at hsome
        simp at hsome
    | some l0 =>
      have hl0mem : l0 ∈ p.lessons := List.mem_of_find?_eq_some hfind
      have hl0id : l0.lessonId = k - 1 := by
        simpa using List.find?_some hfind
      constructor
      · intro hc
        exact ⟨l0, hl0mem, hl0id, hc⟩
      · rintro ⟨l, hl, hid, hc⟩
        have : l = l0 :=
          List.inj_on_of_nodup_map hnd hl hl0mem (by rw [hid, hl0id])
        rw [← this]
        exact hc

/-- Witness for C7 on the state with lessons 1–6 completed, at `k = 7`. -/
theorem isLessonAccessible_spec_witness :
    (progressSix.lessons.map LessonProgress.lessonId).Nodup ∧
      ((7 = 1 → isLessonAccessible progressSix 7 = true) ∧
        (1 < 7 → (isLessonAccessible progressSix 7 = true ↔
          ∃ l, l ∈ progressSix.lessons ∧ l.lessonId = 7 - 1 ∧ l.completed = true))) :=
  ⟨by decide, isLessonAccessible_spec progressSix 7 (by decide)⟩

/-- C8: at store construction, an absent or unparseable persisted snapshot
yields the canonical initial state, and a present well-formed snapshot is
used verbatim (`parse "" = none` records that the empty string — which
JavaScript treats as falsy and never parses — is not a well-formed
snapshot for `JSON.parse` either). -/
theorem loadProgress_spec (parse : String → Option CourseProgress) (s : String)
    (p : CourseProgress) (hmt : parse "" = none) :
    loadProgress none parse = initialProgress ∧
      (parse s = none → loadProgress (some s) parse = initialProgress) ∧
      (parse s = some p → loadProgress (some s) parse = p) := by
  refine ⟨rfl, ?_, ?_⟩
  · intro h
    show (if s = "" then initialProgress
      else match parse s with | some p => p | none => initialProgress) = initialProgress
    by_cases hs : s = ""
    · rw [if_pos hs]
    · rw [if_neg hs, h]
  · intro h
    show (if s = "" then initialProgress
      else match parse s with | some p => p | none => initialProgress) = p
    by_cases hs : s = ""
    · rw [hs, hmt] at h
      exact absurd h (by simp)
    · rw [if_neg hs, h]

/-- Witness for C8: the spec's malformed-snapshot scenario, against a
parse function on which every string is malformed. -/
theorem loadProgress_spec_witness :
    parseNone "" = none ∧
      loadProgress (some "not json") parseNone = initialProgress :=
  ⟨rfl, (loadProgress_spec parseNone "not json" initialProgress rfl).2.1 rfl⟩

/-- C5: whenever the wrapper is not Connected-Active (no handle, not yet
initialized, or terminated), `getValue` returns the empty string,
`setValue` and `commit` return false, and each makes no runtime call and
leaves the wrapper state unchanged. -/
theorem dataOps_disconnected (s : ScormWrapper) (element value : String)
    (h : ScormWrapper.isConnected s = false) :
    ScormWrapper.getValue s element = ⟨"", s, []⟩ ∧
      ScormWrapper.setValue s element value = ⟨false, s, []⟩ ∧
      ScormWrapper.commit s = ⟨false, s, []⟩ := by
  obtain ⟨api, init, fou⟩ := s
  cases init
  · cases api <;> exact ⟨rfl, rfl, rfl⟩
  · cases api
    · exact ⟨rfl, rfl, rfl⟩
    · simp [ScormWrapper.isConnected] at h

/-- Witness for C5 on the wrapper that never found a runtime handle. -/
theorem dataOps_disconnected_witness :
    ScormWrapper.isConnected disconnectedWrapper = false ∧
      (ScormWrapper.getValue disconnectedWrapper "cmi.core.lesson_status" =
          ⟨"", disconnectedWrapper, []⟩ ∧
        ScormWrapper.setValue disconnectedWrapper "cmi.core.lesson_status" "completed" =
          ⟨false, disconnectedWrapper, []⟩ ∧
        ScormWrapper.commit disconnectedWrapper = ⟨false, disconnectedWrapper, []⟩) :=
  ⟨rfl, dataOps_disconnected disconnectedWrapper "cmi.core.lesson_status" "completed" rfl⟩

/-- C6: from the Connected-Active state, `terminate()` issues exactly a
commit request followed by the finish request, clears `initialized`
regardless of the finish response, and returns true exactly when that
response is the literal `"true"`; a second `terminate()` returns false
with no runtime calls. -/
theorem terminate_spec (s : ScormWrapper) (a : ScormAPI)
    (hi : s.initialized = true) (ha : s.api = some a) :
    ScormWrapper.terminate s =
        ⟨a.LMSFinish "" == "true", { s with initialized := false },
          [RuntimeCall.commitCall "", RuntimeCall.finishCall ""]⟩ ∧
      ((ScormWrapper.terminate s).value = true ↔ a.LMSFinish "" = "true") ∧
      ScormWrapper.terminate { s with initialized := false } =
        ⟨false, { s with initialized := false }, []⟩ := by
  obtain ⟨api, init, fou⟩ := s
  cases hi
  cases ha
  refine ⟨rfl, ?_, rfl⟩
  show (a.LMSFinish "" == "true") = true ↔ a.LMSFinish "" = "true"
  exact beq_iff_eq

/-- Witness for C6 on the active wrapper against the all-success runtime. -/
theorem terminate_spec_witness :
    activeWrapper.initialized = true ∧ activeWrapper.api = some apiYes ∧
      (ScormWrapper.terminate activeWrapper =
          ⟨apiYes.LMSFinish "" == "true", { activeWrapper with initialized := false },
            [RuntimeCall.commitCall "", RuntimeCall.finishCall ""]⟩ ∧
        ((ScormWrapper.terminate activeWrapper).value = true ↔ apiYes.LMSFinish "" = "true") ∧
        ScormWrapper.terminate { activeWrapper with initialized := false } =
          ⟨false, { activeWrapper with initialized := false }, []⟩) :=
  ⟨rfl, rfl, terminate_spec activeWrapper apiYes rfl rfl⟩

/-- C10: `terminate()` only clears the `initialized` flag, so on a wrapper
that still holds its runtime handle a later `initialize()` issues a fresh
`LMSInitialize` handshake and, when the runtime answers `"true"`, returns
the wrapper to the active state, in which `getValue`, `setValue` and
`commit` talk to the runtime again. -/
theorem initReq_after_terminate (s : ScormWrapper) (a : ScormAPI) (element value : String)
    (hi : s.initialized = true) (ha : s.api = some a)
    (hresp : a.LMSInitReq "" = "true") :
    (ScormWrapper.terminate s).state.api = some a ∧
      (ScormWrapper.terminate s).state.initialized = false ∧
      ScormWrapper.initReq (ScormWrapper.terminate s).state =
        ⟨true, { (ScormWrapper.terminate s).state with initialized := true },
          [RuntimeCall.initReqCall ""]⟩ ∧
      ScormWrapper.isConnected
        (ScormWrapper.initReq (ScormWrapper.terminate s).state).state = true ∧
      ScormWrapper.getValue
          (ScormWrapper.initReq (ScormWrapper.terminate s).state).state element =
        ⟨a.LMSGetValue element,
          (ScormWrapper.initReq (ScormWrapper.terminate s).state).state,
          [RuntimeCall.getValueCall element]⟩ ∧
      (ScormWrapper.setValue
          (ScormWrapper.initReq (ScormWrapper.terminate s).state).state element value).value =
        (a.LMSSetValue element value == "true") ∧
      (ScormWrapper.commit
          (ScormWrapper.initReq (ScormWrapper.terminate s).state).state).value =
        (a.LMSCommit "" == "true") := by
  obtain ⟨api, init, fou⟩ := s
  cases hi
  cases ha
  refine ⟨rfl, rfl, ?_, ?_, ?_, ?_, ?_⟩ <;>
    simp [ScormWrapper.terminate, ScormWrapper.commit, ScormWrapper.initReq,
      ScormWrapper.getValue, ScormWrapper.setValue, ScormWrapper.isConnected, hresp]

/-- Witness for C10 on the active wrapper against the all-success runtime. -/
theorem initReq_after_terminate_witness :
    activeWrapper.initialized = true ∧ activeWrapper.api = some apiYes ∧
      apiYes.LMSInitReq "" = "true" ∧
      ((ScormWrapper.terminate activeWrapper).state.api = some apiYes ∧
        (ScormWrapper.terminate activeWrapper).state.initialized = false ∧
        ScormWrapper.initReq (ScormWrapper.terminate activeWrapper).state =
          ⟨true, { (ScormWrapper.terminate activeWrapper).state with initialized := true },
            [RuntimeCall.initReqCall ""]⟩ ∧
        ScormWrapper.isConnected
          (ScormWrapper.initReq (ScormWrapper.terminate activeWrapper).state).state = true ∧
        ScormWrapper.getValue
            (ScormWrapper.initReq (ScormWrapper.terminate activeWrapper).state).state
            "cmi.core.student_name" =
          ⟨apiYes.LMSGetValue "cmi.core.student_name",
            (ScormWrapper.initReq (ScormWrapper.terminate activeWrapper).state).state,
            [RuntimeCall.getValueCall "cmi.core.student_name"]⟩ ∧
        (ScormWrapper.setValue
            (ScormWrapper.initReq (ScormWrapper.terminate activeWrapper).state).state
            "cmi.core.student_name" "x").value =
          (apiYes.LMSSetValue "cmi.core.student_name" "x" == "true") ∧
        (ScormWrapper.commit
            (ScormWrapper.initReq (ScormWrapper.terminate activeWrapper).state).state).value =
          (apiYes.LMSCommit "" == "true")) :=
  ⟨rfl, rfl, rfl,
    initReq_after_terminate activeWrapper apiYes "cmi.core.student_name" "x" rfl rfl rfl⟩

/-- `findAPIFuel` is monotone in the opener-recursion fuel: once the
search returns within some fuel, more fuel gives the same result. -/
theorem findAPIFuel_mono (g : WindowGraph) (fuel fuel' w : Nat) (r : Option ScormAPI)
    (hle : fuel ≤ fuel') (h : findAPIFuel g fuel w = some r) :
    findAPIFuel g fuel' w = some r := by
  induction fuel generalizing fuel' w with
  | zero => simp [findAPIFuel] at h
  | succ n ih =>
    obtain ⟨m, rfl⟩ : ∃ m, fuel' = m + 1 := ⟨fuel' - 1, by omega⟩
    rw [findAPIFuel] at h ⊢
    cases hapi : g.api (findAPIWalk g w 500) with
    | some a =>
      rw [hapi] at h
      exact h
    | none =>
      rw [hapi] at h
      cases hop : g.opener (findAPIWalk g w 500) with
      | some o =>
        rw [hop] at h
        have h' : findAPIFuel g n o = some r := h
        exact ih m o (by omega) h'
      | none =>
        rw [hop] at h
        exact h

/-- On the self-opener hierarchy the search never returns, whatever the
opener-recursion fuel. -/
theorem findAPIFuel_cyclic (fuel : Nat) :
    findAPIFuel cyclicOpenerGraph fuel 0 = none := by
  induction fuel with
  | zero => rfl
  | succ n ih => exact ih

/-- C9 counterexample: the discovery does not terminate on every window
hierarchy — on a window with no `API`, no parent, and itself as opener,
the opener recursion of `findAPI` restarts forever. -/
theorem findAPI_cyclic_counterexample : ¬ FindAPITerminates cyclicOpenerGraph 0 := by
  rintro ⟨fuel, h⟩
  rw [findAPIFuel_cyclic fuel] at h
  simp at h

/-- The parent walk makes at most as many hops as its attempt budget. -/
theorem findAPIWalkSteps_le (g : WindowGraph) :
    ∀ rem w, findAPIWalkSteps g w rem ≤ rem := by
  intro rem
  induction rem with
  | zero =>
    intro w
    simp [findAPIWalkSteps]
  | succ n ih =>
    intro w
    rw [findAPIWalkSteps]
    cases hapi : g.api w with
    | some a =>
      cases hp : g.parent w with
      | none => exact Nat.zero_le _
      | some p => exact Nat.zero_le _
    | none =>
      cases hp : g.parent w with
      | none => exact Nat.zero_le _
      | some p =>
        show (if p ≠ w then findAPIWalkSteps g p n + 1 else 0) ≤ n + 1
        by_cases hpw : p ≠ w
        · rw [if_pos hpw]
          exact Nat.succ_le_succ (ih p)
        · rw [if_neg hpw]
          exact Nat.zero_le _

/-- When every opener edge leaving a parent-walk endpoint decreases a
measure `μ` (i.e. the opener chain the search actually follows is
well-founded), fuel `μ w + 1` suffices for the search from `w`. -/
theorem findAPIFuel_of_measure (g : WindowGraph) (μ : Nat → Nat)
    (hdec : ∀ v o, g.opener (findAPIWalk g v 500) = some o → μ o < μ v) :
    ∀ w, (findAPIFuel g (μ w + 1) w).isSome = true := by
  suffices key : ∀ n w, μ w ≤ n → (findAPIFuel g (μ w + 1) w).isSome = true by
    intro w
    exact key (μ w) w le_rfl
  intro n
  induction n with
  | zero =>
    intro w hw
    rw [findAPIFuel]
    cases hapi : g.api (findAPIWalk g w 500) with
    | some a => rfl
    | none =>
      cases hop : g.opener (findAPIWalk g w 500) with
      | none => rfl
      | some o => exact absurd (hdec w o hop) (by omega)
  | succ n ih =>
    intro w hw
    rw [findAPIFuel]
    cases hapi : g.api (findAPIWalk g w 500) with
    | some a => rfl
    | none =>
      cases hop : g.opener (findAPIWalk g w 500) with
      | none => rfl
      | some o =>
        have hlt : μ o < μ w := hdec w o hop
        have hsome := ih o (by omega)
        obtain ⟨r, hr⟩ := Option.isSome_iff_exists.mp hsome
        have hm := findAPIFuel_mono g (μ o + 1) (μ w) o r (by omega) hr
        show (findAPIFuel g (μ w) o).isSome = true
        rw [hm]
        rfl

/-- C9 (amended): the parent walk of the discovery performs at most 500
hops, and the search as a whole terminates on every hierarchy whose
opener chain is well-founded (witnessed by a decreasing measure on the
opener edges the search follows); on a cyclic opener chain it diverges. -/
theorem findAPI_bounded_and_terminates (g : WindowGraph) (μ : Nat → Nat) (w : Nat)
    (hdec : ∀ v o, g.opener (findAPIWalk g v 500) = some o → μ o < μ v) :
    findAPIWalkSteps g w 500 ≤ 500 ∧ (findAPIFuel g (μ w + 1) w).isSome = true :=
  ⟨findAPIWalkSteps_le g 500 w, findAPIFuel_of_measure g μ hdec w⟩

/-- Witness for the amended C9 on a two-window hierarchy with an acyclic
opener chain, measured by the window id itself. -/
theorem findAPI_bounded_and_terminates_witness :
    findAPIWalkSteps acyclicOpenerGraph 1 500 ≤ 500 ∧
      (findAPIFuel acyclicOpenerGraph (1 + 1) 1).isSome = true :=
  findAPI_bounded_and_terminates acyclicOpenerGraph (fun n => n) 1 (by
    intro v o h
    show o < v
    have h' : (if v = 1 then some 0 else none) = some o := h
    by_cases hv : v = 1
    · rw [if_pos hv] at h'
      have ho : o = 0 := by
        injection h' with h0
        omega
      omega
    · rw [if_neg hv] at h'
      exact absurd h' (by simp))
